import Mathlib

/-!
A verification development for the Universal Machine (UM-32) interpreter in
`pkg/um/um.go`.  The machine state, instruction dispatch, loader and
checkpointer are shallowly embedded as executable Lean definitions that
mirror the Go source; theorems below settle the specification claims.

Conventions of the embedding:
* `platter` (Go `uint32`) values are `Nat`s; every operation that wraps in
  Go applies `% 4294967296` exactly where the Go arithmetic wraps.
* The heap (`map[platter][]platter`) is a function `Nat → Option (List Nat)`;
  a missing key is `none` (Go: the zero value `nil`, of length 0).
* `ExFinger` (Go `int`) is an `Int`, since `LoadFromBackup` decrements it
  unconditionally.
* Run-time panics of the Go code (index out of range, division by zero) are
  the `fault` outcome; `halt(nil)` / `halt(err)` are `halted false/true`.
* Console I/O: one call of `io.Reader.Read` on a 1-byte buffer returns a
  byte count, the byte, and an optional error (EOF or other); this triple is
  the `ReadResult` input of a dispatch step.  Output bytes are external
  effects with no bearing on any claim and are not recorded.
-/

namespace UMLib

/-- Error outcome of one `Read` call on the console input (`io.EOF` or any
other error), from `um.go` lines 229-241. -/
inductive ReadErr where
  | eof
  | other
deriving DecidableEq

/-- Result of one `io.Reader.Read(ip)` call with `len(ip) = 1`: the byte
count, the byte placed in the buffer, and the optional error. -/
structure ReadResult where
  count : Nat
  byte : Nat
  err : Option ReadErr
deriving DecidableEq

/-- Machine state: the exported fields of Go struct `UniversalMachine`
(`Gpr`, `Heap`, `NextHeap`, `ExFinger`), from `um.go` lines 19-30. -/
structure UM where
  Gpr : Nat → Nat
  Heap : Nat → Option (List Nat)
  NextHeap : Nat
  ExFinger : Int

/-- Write register `i` (Go `um.Gpr[i] = v`). -/
def setReg (g : Nat → Nat) (i v : Nat) : Nat → Nat :=
  fun j => if j = i then v else g j

/-- Map update (Go `h[k] = v`). -/
def heapInsert (h : Nat → Option (List Nat)) (k : Nat) (v : List Nat) :
    Nat → Option (List Nat) :=
  fun j => if j = k then some v else h j

/-- Map deletion (Go `delete(h, k)`). -/
def heapErase (h : Nat → Option (List Nat)) (k : Nat) :
    Nat → Option (List Nat) :=
  fun j => if j = k then none else h j

/-- Outcome of dispatching one instruction: continue in a new state, stop
(`halt(nil)` when `withError = false`, `halt(err)` when `true`), or hit a
Go run-time panic. -/
inductive Outcome where
  | next (m : UM)
  | halted (withError : Bool)
  | fault

/-- Whether an outcome continues execution. -/
def Outcome.isNext : Outcome → Bool
  | .next _ => true
  | _ => false

/-- `allocateHeapArray` from `um.go` lines 128-132: store a zero-filled
array of the requested length at key `NextHeap`, increment `NextHeap`
(uint32, so modulo 2^32), and return `NextHeap - 1` (again uint32
arithmetic). -/
def allocateHeapArray (m : UM) (len : Nat) : UM × Nat :=
  let heap' := heapInsert m.Heap m.NextHeap (List.replicate len 0)
  let next' := (m.NextHeap + 1) % 4294967296
  ({ m with Heap := heap', NextHeap := next' }, (next' + 4294967295) % 4294967296)

/-- The body of the `switch` statement of `spin` (`um.go` lines 142-287),
abstracted over the decoded values: `op` is `instruction & 0xf0000000`,
`a`, `b`, `c` are the standard register indices, `aw` and `imm` the
Orthography register index and immediate.  `exec` below instantiates them
with the decodes of the instruction; keeping them as parameters lets the
theorems about decoding state exactly which bits each opcode consumes. -/
def execD (m : UM) (op a b c aw imm : Nat) (rd : ReadResult) : Outcome :=
  if op = 0 then
    -- #0 Conditional Move
    if m.Gpr c ≠ 0 then Outcome.next { m with Gpr := setReg m.Gpr a (m.Gpr b) }
    else Outcome.next m
  else if op = 0x10000000 then
    -- #1 Array Index (out-of-range or missing segment: Go panic)
    let seg := (m.Heap (m.Gpr b)).getD []
    if h : m.Gpr c < seg.length then
      Outcome.next { m with Gpr := setReg m.Gpr a (seg.get ⟨m.Gpr c, h⟩) }
    else Outcome.fault
  else if op = 0x20000000 then
    -- #2 Array Amendment
    let seg := (m.Heap (m.Gpr a)).getD []
    if m.Gpr b < seg.length then
      Outcome.next { m with Heap := heapInsert m.Heap (m.Gpr a) (seg.set (m.Gpr b) (m.Gpr c)) }
    else Outcome.fault
  else if op = 0x30000000 then
    -- #3 Addition (uint32 wraps)
    Outcome.next { m with Gpr := setReg m.Gpr a ((m.Gpr b + m.Gpr c) % 4294967296) }
  else if op = 0x40000000 then
    -- #4 Multiplication (uint32 wraps)
    Outcome.next { m with Gpr := setReg m.Gpr a ((m.Gpr b * m.Gpr c) % 4294967296) }
  else if op = 0x50000000 then
    -- #5 Division (division by zero: Go panic)
    if m.Gpr c = 0 then Outcome.fault
    else Outcome.next { m with Gpr := setReg m.Gpr a (m.Gpr b / m.Gpr c) }
  else if op = 0x60000000 then
    -- #6 Not-And: `^(b & c)` on uint32 flips the low 32 bits
    Outcome.next { m with Gpr := setReg m.Gpr a ((m.Gpr b &&& m.Gpr c) ^^^ 4294967295) }
  else if op = 0x70000000 then
    -- #7 Halt: `um.halt(nil)`
    Outcome.halted false
  else if op = 0x80000000 then
    -- #8 Allocation
    Outcome.next { (allocateHeapArray m (m.Gpr c)).1 with
      Gpr := setReg m.Gpr b (allocateHeapArray m (m.Gpr c)).2 }
  else if op = 0x90000000 then
    -- #9 Abandonment
    Outcome.next { m with Heap := heapErase m.Heap (m.Gpr c) }
  else if op = 0xa0000000 then
    -- #10 Output: writes one byte to the sink, state unchanged
    Outcome.next m
  else if op = 0xb0000000 then
    -- #11 Input: `um.backup()` touches only the checkpointer (modelled by
    -- `backupStep` below), then one Read; `count == 1` stores the byte,
    -- then `err == io.EOF` overwrites with 0xffffffff, any other error
    -- halts with an error.
    let g1 := if rd.count = 1 then setReg m.Gpr c rd.byte else m.Gpr
    match rd.err with
    | none => Outcome.next { m with Gpr := g1 }
    | some ReadErr.eof => Outcome.next { m with Gpr := setReg g1 c 4294967295 }
    | some ReadErr.other => Outcome.halted true
  else if op = 0xc0000000 then
    -- #12 Load Program: for a non-zero source, a fresh slice is allocated
    -- and the elements are copied into it, so segment 0 receives a copy of
    -- the source segment's element sequence
    if m.Gpr b ≠ 0 then
      Outcome.next { m with
        Heap := heapInsert m.Heap 0 ((m.Heap (m.Gpr b)).getD []),
        ExFinger := (m.Gpr c : Int) }
    else
      Outcome.next { m with ExFinger := (m.Gpr c : Int) }
  else if op = 0xd0000000 then
    -- #13 Orthography
    Outcome.next { m with Gpr := setReg m.Gpr aw imm }
  else
    -- opcodes 14 and 15 have no case in the switch: no state change
    Outcome.next m

/-- Dispatch of one already-fetched instruction, with the decodes of
`um.go`: opcode mask `0xf0000000`, register masks `0x1C0 >> 6`,
`0x38 >> 3`, `0x7`, Orthography masks `0x0e000000 >> 25` and
`0x01ffffff`. -/
def exec (m : UM) (instr : Nat) (rd : ReadResult) : Outcome :=
  execD m (instr &&& 0xf0000000) ((instr &&& 0x000001C0) >>> 6)
    ((instr &&& 0x00000038) >>> 3) (instr &&& 0x00000007)
    ((instr &&& 0x0e000000) >>> 25) (instr &&& 0x01ffffff) rd

/-- The post-state of a dispatch that continues (defaults to the pre-state
for a halt or fault, which the theorems exclude via `Outcome.isNext`). -/
def execNext (m : UM) (instr : Nat) (rd : ReadResult) : UM :=
  match exec m instr rd with
  | Outcome.next m' => m'
  | _ => m

/-- One iteration of the `spin` loop (`um.go` lines 138-141): fetch
`Heap[0][ExFinger]` (a panic if segment 0 is missing or the finger is out
of range), advance the finger, dispatch. -/
def step (m : UM) (rd : ReadResult) : Outcome :=
  let prog := (m.Heap 0).getD []
  if h : 0 ≤ m.ExFinger ∧ m.ExFinger.toNat < prog.length then
    exec { m with ExFinger := m.ExFinger + 1 } (prog.get ⟨m.ExFinger.toNat, h.2⟩) rd
  else Outcome.fault

end UMLib

namespace UMLib

/-! ### Bit-level decoding lemmas -/

theorem and_shiftRight_distrib (x y k : Nat) :
    (x &&& y) >>> k = (x >>> k) &&& (y >>> k) := by
  apply Nat.eq_of_testBit_eq
  intro i
  simp [Nat.testBit_shiftRight, Nat.testBit_and]

theorem and_shiftLeft_distrib (x y k : Nat) :
    x &&& (y <<< k) = ((x >>> k) &&& y) <<< k := by
  apply Nat.eq_of_testBit_eq
  intro i
  simp only [Nat.testBit_and, Nat.testBit_shiftLeft, Nat.testBit_shiftRight]
  by_cases h : k ≤ i
  · simp [h, Nat.add_sub_cancel' h]
  · simp [h]

theorem mask7_eq (x : Nat) : x &&& 0x7 = x % 8 := by
  have h : (0x7 : Nat) = 2 ^ 3 - 1 := by decide
  rw [h, Nat.and_pow_two_sub_one_eq_mod]

theorem mask38_eq (x : Nat) : (x &&& 0x38) >>> 3 = x / 8 % 8 := by
  rw [and_shiftRight_distrib]
  have h : (0x38 : Nat) >>> 3 = 2 ^ 3 - 1 := by decide
  rw [h, Nat.and_pow_two_sub_one_eq_mod, Nat.shiftRight_eq_div_pow]

theorem mask1C0_eq (x : Nat) : (x &&& 0x1C0) >>> 6 = x / 64 % 8 := by
  rw [and_shiftRight_distrib]
  have h : (0x1C0 : Nat) >>> 6 = 2 ^ 3 - 1 := by decide
  rw [h, Nat.and_pow_two_sub_one_eq_mod, Nat.shiftRight_eq_div_pow]

theorem mask0e_eq (x : Nat) : (x &&& 0x0e000000) >>> 25 = x / 33554432 % 8 := by
  rw [and_shiftRight_distrib]
  have h : (0x0e000000 : Nat) >>> 25 = 2 ^ 3 - 1 := by decide
  rw [h, Nat.and_pow_two_sub_one_eq_mod, Nat.shiftRight_eq_div_pow]

theorem maskImm_eq (x : Nat) : x &&& 0x01ffffff = x % 33554432 := by
  have h : (0x01ffffff : Nat) = 2 ^ 25 - 1 := by decide
  rw [h, Nat.and_pow_two_sub_one_eq_mod]

theorem maskOp_eq (x : Nat) : x &&& 0xf0000000 = x / 268435456 % 16 * 268435456 := by
  have h : (0xf0000000 : Nat) = 15 <<< 28 := by decide
  rw [h, and_shiftLeft_distrib]
  have h15 : (15 : Nat) = 2 ^ 4 - 1 := by decide
  rw [h15, Nat.and_pow_two_sub_one_eq_mod, Nat.shiftLeft_eq, Nat.shiftRight_eq_div_pow]

end UMLib

namespace UMLib

/-! ### Loader, snapshot and checkpointer models -/

/-- A fresh machine as produced by `New` (`um.go` lines 32-43): zero
registers, empty heap, zero counter and finger. -/
def newUM : UM :=
  { Gpr := fun _ => 0, Heap := fun _ => none, NextHeap := 0, ExFinger := 0 }

/-- Big-endian platter decoding performed by
`binary.Read(..., binary.BigEndian, &platterProgram)` in `LoadProgram`
(`um.go` line 107): each consecutive group of 4 bytes becomes one unsigned
32-bit platter, first byte most significant. -/
def bytesToPlatters : List Nat → List Nat
  | b0 :: b1 :: b2 :: b3 :: rest =>
      (((b0 * 256 + b1) * 256 + b2) * 256 + b3) :: bytesToPlatters rest
  | _ => []

/-- `LoadProgram` (`um.go` lines 98-116).  The argument is the result of
`ioutil.ReadAll` on the program stream: an I/O error or the full byte
list.  `binary.Read` into a buffer of `ceil(len/4)` platters fails with an
unexpected-EOF error exactly when the byte count is not a multiple of 4;
both error paths return before any state is touched.  On success the
allocated zero array (id `NextHeap`) is filled by `copy` with the decoded
platters, which have exactly the allocated length.  Returns the post-state
and whether an error was returned. -/
def loadProgram (m : UM) (input : Except Unit (List Nat)) : UM × Bool :=
  match input with
  | Except.error _ => (m, true)
  | Except.ok programData =>
    if programData.length % 4 = 0 then
      let res := allocateHeapArray m ((programData.length + 3) / 4)
      ({ res.1 with Heap := heapInsert res.1.Heap res.2 (bytesToPlatters programData) },
        false)
    else (m, true)

/-- A snapshot as serialized by `gob` in `doBackup` (`um.go` lines 63-64):
the exported fields of the machine.  The `gob` byte format round-trips the
exported fields exactly (decoding into the zero-valued fresh machine that
`LoadFromBackup` is called on), so encoding is modelled as the record of
those fields. -/
structure Snapshot where
  Gpr : Nat → Nat
  Heap : Nat → Option (List Nat)
  NextHeap : Nat
  ExFinger : Int

/-- The checkpointer's encoding of a machine (`enc.Encode(um)`,
`um.go` line 64). -/
def encodeSnapshot (m : UM) : Snapshot :=
  { Gpr := m.Gpr, Heap := m.Heap, NextHeap := m.NextHeap, ExFinger := m.ExFinger }

/-- `LoadFromBackup` (`um.go` lines 89-97): decode the snapshot into the
receiver, then decrement the execution finger. -/
def loadFromBackup (_m : UM) (s : Snapshot) : UM :=
  { Gpr := s.Gpr, Heap := s.Heap, NextHeap := s.NextHeap, ExFinger := s.ExFinger - 1 }

/-- The checkpoint gate `backup` (`um.go` lines 45-52), at one observation
instant `now` of the wall clock (nanoseconds; `time.Since` returns
`now - lastBackup`, `time.Minute = 6*10^10 ns`).  Result: whether a
checkpoint was attempted (`doBackup` called), whether the timestamped
archive copy was requested (its argument `withTimestampFile`), and the
`lastBackup` timestamp after the call. -/
def backupStep (folderConfigured : Bool) (lastBackup now : Nat) : Bool × Bool × Nat :=
  if folderConfigured then
    if now - lastBackup > 60000000000 then
      (true, now - lastBackup > 900000000000, now)
    else (false, false, lastBackup)
  else (false, false, lastBackup)

/-- The destination register of a dispatch, by decoded opcode: A for
opcodes 0, 1, 3, 4, 5, 6, B for opcode 8, C for opcode 11, the wide A for
opcode 13, and none for the remaining opcodes. -/
def destRegD (op a b c aw : Nat) : Option Nat :=
  if op = 0 ∨ op = 0x10000000 ∨ op = 0x30000000 ∨ op = 0x40000000 ∨
      op = 0x50000000 ∨ op = 0x60000000 then some a
  else if op = 0x80000000 then some b
  else if op = 0xb0000000 then some c
  else if op = 0xd0000000 then some aw
  else none

/-- The destination register an instruction names: A (bits 6..8) for
opcodes 0, 1, 3, 4, 5, 6, B (bits 3..5) for opcode 8, C (bits 0..2) for
opcode 11, A (bits 25..27) for opcode 13, and none for the remaining
opcodes. -/
def destReg (instr : Nat) : Option Nat :=
  destRegD (instr &&& 0xf0000000) ((instr &&& 0x000001C0) >>> 6)
    ((instr &&& 0x00000038) >>> 3) (instr &&& 0x00000007)
    ((instr &&& 0x0e000000) >>> 25)

/-! ### Helper lemmas -/

theorem setReg_same (g : Nat → Nat) (i v : Nat) : setReg g i v i = v := by
  simp [setReg]

theorem setReg_other (g : Nat → Nat) (i v j : Nat) (h : j ≠ i) :
    setReg g i v j = g j := by
  simp [setReg, h]

theorem exec_eq_execD (m : UM) (instr : Nat) (rd : ReadResult) :
    exec m instr rd =
      execD m (instr &&& 0xf0000000) ((instr &&& 0x000001C0) >>> 6)
        ((instr &&& 0x00000038) >>> 3) (instr &&& 0x00000007)
        ((instr &&& 0x0e000000) >>> 25) (instr &&& 0x01ffffff) rd := rfl

/-- For any opcode other than 13, the dispatch does not look at the wide
register index or the immediate. -/
theorem execD_wide_irrelevant (m : UM) (op a b c aw imm aw' imm' : Nat)
    (rd : ReadResult) (h : op ≠ 0xd0000000) :
    execD m op a b c aw imm rd = execD m op a b c aw' imm' rd := by
  by_cases h0 : op = 0
  · subst h0; rfl
  by_cases h1 : op = 0x10000000
  · subst h1; rfl
  by_cases h2 : op = 0x20000000
  · subst h2; rfl
  by_cases h3 : op = 0x30000000
  · subst h3; rfl
  by_cases h4 : op = 0x40000000
  · subst h4; rfl
  by_cases h5 : op = 0x50000000
  · subst h5; rfl
  by_cases h6 : op = 0x60000000
  · subst h6; rfl
  by_cases h7 : op = 0x70000000
  · subst h7; rfl
  by_cases h8 : op = 0x80000000
  · subst h8; rfl
  by_cases h9 : op = 0x90000000
  · subst h9; rfl
  by_cases h10 : op = 0xa0000000
  · subst h10; rfl
  by_cases h11 : op = 0xb0000000
  · subst h11; rfl
  by_cases h12 : op = 0xc0000000
  · subst h12; rfl
  unfold execD
  simp only [if_neg h0, if_neg h1, if_neg h2, if_neg h3, if_neg h4, if_neg h5,
    if_neg h6, if_neg h7, if_neg h8, if_neg h9, if_neg h10, if_neg h11,
    if_neg h12, if_neg h]

end UMLib

namespace UMLib

theorem heapInsert_same (h : Nat → Option (List Nat)) (k : Nat) (v : List Nat) :
    heapInsert h k v k = some v := by
  simp [heapInsert]

theorem heapInsert_other (h : Nat → Option (List Nat)) (k : Nat) (v : List Nat)
    (j : Nat) (hj : j ≠ k) : heapInsert h k v j = h j := by
  simp [heapInsert, hj]

/-- Register and counter frame property of a dispatch, by decoded opcode:
when the dispatch continues, every register other than the destination
named by `destRegD` is unchanged, and `NextHeap` is unchanged except by
opcode 8. -/
theorem execD_frame (m : UM) (op a b c aw imm : Nat) (rd : ReadResult) (m' : UM)
    (h : execD m op a b c aw imm rd = Outcome.next m') :
    (∀ j, destRegD op a b c aw ≠ some j → m'.Gpr j = m.Gpr j) ∧
    (op ≠ 0x80000000 → m'.NextHeap = m.NextHeap) := by
  by_cases h0 : op = 0
  · subst h0
    replace h : (if m.Gpr c ≠ 0 then
        Outcome.next { m with Gpr := setReg m.Gpr a (m.Gpr b) }
      else Outcome.next m) = Outcome.next m' := h
    constructor
    · intro j hj
      replace hj : ¬(some a = some j) := hj
      have hja : j ≠ a := fun e => hj (by rw [e])
      split at h <;> cases h
      · exact setReg_other _ _ _ _ hja
      · rfl
    · intro _
      split at h <;> cases h <;> rfl
  by_cases h1 : op = 0x10000000
  · subst h1
    replace h : (if hlt : m.Gpr c < ((m.Heap (m.Gpr b)).getD []).length then
        Outcome.next { m with
          Gpr := setReg m.Gpr a (((m.Heap (m.Gpr b)).getD []).get ⟨m.Gpr c, hlt⟩) }
      else Outcome.fault) = Outcome.next m' := h
    constructor
    · intro j hj
      replace hj : ¬(some a = some j) := hj
      have hja : j ≠ a := fun e => hj (by rw [e])
      split at h <;> cases h
      exact setReg_other _ _ _ _ hja
    · intro _
      split at h <;> cases h <;> rfl
  by_cases h2 : op = 0x20000000
  · subst h2
    replace h : (if m.Gpr b < ((m.Heap (m.Gpr a)).getD []).length then
        Outcome.next { m with
          Heap := heapInsert m.Heap (m.Gpr a)
            (((m.Heap (m.Gpr a)).getD []).set (m.Gpr b) (m.Gpr c)) }
      else Outcome.fault) = Outcome.next m' := h
    constructor
    · intro j _
      split at h <;> cases h
      rfl
    · intro _
      split at h <;> cases h <;> rfl
  by_cases h3 : op = 0x30000000
  · subst h3
    replace h : Outcome.next { m with
        Gpr := setReg m.Gpr a ((m.Gpr b + m.Gpr c) % 4294967296) } = Outcome.next m' := h
    cases h
    refine ⟨fun j hj => ?_, fun _ => rfl⟩
    replace hj : ¬(some a = some j) := hj
    exact setReg_other _ _ _ _ (fun e => hj (by rw [e]))
  by_cases h4 : op = 0x40000000
  · subst h4
    replace h : Outcome.next { m with
        Gpr := setReg m.Gpr a ((m.Gpr b * m.Gpr c) % 4294967296) } = Outcome.next m' := h
    cases h
    refine ⟨fun j hj => ?_, fun _ => rfl⟩
    replace hj : ¬(some a = some j) := hj
    exact setReg_other _ _ _ _ (fun e => hj (by rw [e]))
  by_cases h5 : op = 0x50000000
  · subst h5
    replace h : (if m.Gpr c = 0 then Outcome.fault
      else Outcome.next { m with Gpr := setReg m.Gpr a (m.Gpr b / m.Gpr c) }) =
        Outcome.next m' := h
    constructor
    · intro j hj
      replace hj : ¬(some a = some j) := hj
      have hja : j ≠ a := fun e => hj (by rw [e])
      split at h <;> cases h
      exact setReg_other _ _ _ _ hja
    · intro _
      split at h <;> cases h <;> rfl
  by_cases h6 : op = 0x60000000
  · subst h6
    replace h : Outcome.next { m with
        Gpr := setReg m.Gpr a ((m.Gpr b &&& m.Gpr c) ^^^ 4294967295) } = Outcome.next m' := h
    cases h
    refine ⟨fun j hj => ?_, fun _ => rfl⟩
    replace hj : ¬(some a = some j) := hj
    exact setReg_other _ _ _ _ (fun e => hj (by rw [e]))
  by_cases h7 : op = 0x70000000
  · subst h7
    replace h : Outcome.halted false = Outcome.next m' := h
    cases h
  by_cases h8 : op = 0x80000000
  · subst h8
    replace h : Outcome.next { (allocateHeapArray m (m.Gpr c)).1 with
        Gpr := setReg m.Gpr b (allocateHeapArray m (m.Gpr c)).2 } = Outcome.next m' := h
    cases h
    refine ⟨fun j hj => ?_, fun hne => absurd rfl hne⟩
    replace hj : ¬(some b = some j) := hj
    exact setReg_other _ _ _ _ (fun e => hj (by rw [e]))
  by_cases h9 : op = 0x90000000
  · subst h9
    replace h : Outcome.next { m with Heap := heapErase m.Heap (m.Gpr c) } =
      Outcome.next m' := h
    cases h
    exact ⟨fun j _ => rfl, fun _ => rfl⟩
  by_cases h10 : op = 0xa0000000
  · subst h10
    replace h : Outcome.next m = Outcome.next m' := h
    cases h
    exact ⟨fun j _ => rfl, fun _ => rfl⟩
  by_cases h11 : op = 0xb0000000
  · subst h11
    replace h : (match rd.err with
      | none => Outcome.next { m with
          Gpr := if rd.count = 1 then setReg m.Gpr c rd.byte else m.Gpr }
      | some ReadErr.eof => Outcome.next { m with
          Gpr := setReg (if rd.count = 1 then setReg m.Gpr c rd.byte else m.Gpr)
            c 4294967295 }
      | some ReadErr.other => Outcome.halted true) = Outcome.next m' := h
    rcases herr : rd.err with _ | er
    · rw [herr] at h
      replace h : Outcome.next { m with
          Gpr := if rd.count = 1 then setReg m.Gpr c rd.byte else m.Gpr } =
        Outcome.next m' := h
      cases h
      refine ⟨fun j hj => ?_, fun _ => rfl⟩
      replace hj : ¬(some c = some j) := hj
      have hjc : j ≠ c := fun e => hj (by rw [e])
      show (if rd.count = 1 then setReg m.Gpr c rd.byte else m.Gpr) j = m.Gpr j
      split
      · exact setReg_other _ _ _ _ hjc
      · rfl
    · cases er
      · rw [herr] at h
        replace h : Outcome.next { m with
            Gpr := setReg (if rd.count = 1 then setReg m.Gpr c rd.byte else m.Gpr)
              c 4294967295 } = Outcome.next m' := h
        cases h
        refine ⟨fun j hj => ?_, fun _ => rfl⟩
        replace hj : ¬(some c = some j) := hj
        have hjc : j ≠ c := fun e => hj (by rw [e])
        show setReg (if rd.count = 1 then setReg m.Gpr c rd.byte else m.Gpr)
          c 4294967295 j = m.Gpr j
        rw [setReg_other _ _ _ _ hjc]
        split
        · exact setReg_other _ _ _ _ hjc
        · rfl
      · rw [herr] at h
        replace h : Outcome.halted true = Outcome.next m' := h
        cases h
  by_cases h12 : op = 0xc0000000
  · subst h12
    replace h : (if m.Gpr b ≠ 0 then
        Outcome.next { m with
          Heap := heapInsert m.Heap 0 ((m.Heap (m.Gpr b)).getD []),
          ExFinger := (m.Gpr c : Int) }
      else Outcome.next { m with ExFinger := (m.Gpr c : Int) }) = Outcome.next m' := h
    constructor
    · intro j _
      split at h <;> cases h <;> rfl
    · intro _
      split at h <;> cases h <;> rfl
  by_cases h13 : op = 0xd0000000
  · subst h13
    replace h : Outcome.next { m with Gpr := setReg m.Gpr aw imm } = Outcome.next m' := h
    cases h
    refine ⟨fun j hj => ?_, fun _ => rfl⟩
    replace hj : ¬(some aw = some j) := hj
    exact setReg_other _ _ _ _ (fun e => hj (by rw [e]))
  have hd : execD m op a b c aw imm rd = Outcome.next m := by
    unfold execD
    simp only [if_neg h0, if_neg h1, if_neg h2, if_neg h3, if_neg h4, if_neg h5,
      if_neg h6, if_neg h7, if_neg h8, if_neg h9, if_neg h10, if_neg h11,
      if_neg h12, if_neg h13]
  rw [hd] at h
  cases h
  exact ⟨fun j _ => rfl, fun _ => rfl⟩

end UMLib

namespace UMLib

/-! ### Concrete states used by witnesses and counterexamples -/

/-- Dummy read result for dispatches that do not touch the console. -/
def rdNone : ReadResult := ⟨0, 0, none⟩

/-- A generic mid-run machine state. -/
def cmGen : UM :=
  { Gpr := fun j => j + 1,
    Heap := fun k => if k = 0 then some [7, 8] else none,
    NextHeap := 3, ExFinger := 5 }

/-! ### Claims -/

/-- C2: snapshot round-trip with finger rewind.  Decoding the
checkpointer's encoding of any machine state restores the registers, heap
contents and next-identifier counter exactly, and always yields an
execution finger exactly one less than the encoded one. -/
theorem c2_snapshot_roundtrip (m0 m : UM) :
    (loadFromBackup m0 (encodeSnapshot m)).Gpr = m.Gpr ∧
    (loadFromBackup m0 (encodeSnapshot m)).Heap = m.Heap ∧
    (loadFromBackup m0 (encodeSnapshot m)).NextHeap = m.NextHeap ∧
    (loadFromBackup m0 (encodeSnapshot m)).ExFinger = m.ExFinger - 1 :=
  ⟨rfl, rfl, rfl, rfl⟩

/-- C7: whenever `LoadProgram` returns an error — an I/O failure while
reading the stream, or a byte count that is not a multiple of 4 — the
machine state (registers, heap, counter and finger) is exactly the
pre-call state. -/
theorem c7_loadProgram_error_unchanged (m : UM) (input : Except Unit (List Nat))
    (h : (loadProgram m input).2 = true) : (loadProgram m input).1 = m := by
  match input with
  | Except.error e => rfl
  | Except.ok d =>
    by_cases hlen : d.length % 4 = 0
    · exfalso
      have : (loadProgram m (Except.ok d)).2 = false := by
        unfold loadProgram
        simp [if_pos hlen]
      rw [h] at this
      exact Bool.noConfusion this
    · unfold loadProgram
      simp [if_neg hlen]

/-- C7 witness: a 3-byte stream is rejected and `cmGen` is untouched. -/
theorem c7_witness :
    (loadProgram cmGen (Except.ok [1, 2, 3])).2 = true ∧
    (loadProgram cmGen (Except.ok [1, 2, 3])).1 = cmGen :=
  ⟨by decide, c7_loadProgram_error_unchanged cmGen (Except.ok [1, 2, 3]) (by decide)⟩

/-- C8 counterexample: with a backup folder configured and exactly 900
seconds (in nanoseconds) elapsed since the last checkpoint, a checkpoint
is attempted but no archive copy is emitted, refuting "additionally emits
an archive copy exactly when at least 900 seconds have elapsed": the code
requires strictly more than 900 seconds. -/
theorem c8_counterexample :
    (backupStep true 0 900000000000).1 = true ∧
    (backupStep true 0 900000000000).2.1 = false ∧
    900000000000 - 0 ≥ 900000000000 := by
  refine ⟨?_, ?_, ?_⟩ <;> decide

/-- C8 (amended): the checkpointer is a no-op without a configured folder;
it checkpoints only when at least 60 seconds have elapsed (the code gate
is strictly more than 60 seconds, which implies this); it emits the
archive copy exactly when the folder is configured and strictly more than
900 seconds have elapsed; and the last-checkpoint timestamp becomes `now`
exactly on a checkpoint attempt. -/
theorem c8_backup_amended (folder : Bool) (last now : Nat) :
    (folder = false → backupStep folder last now = (false, false, last)) ∧
    ((backupStep folder last now).1 = true → now - last ≥ 60000000000) ∧
    ((backupStep folder last now).2.1 = true ↔
      folder = true ∧ now - last > 900000000000) ∧
    ((backupStep folder last now).1 = true → (backupStep folder last now).2.2 = now) ∧
    ((backupStep folder last now).1 = false → (backupStep folder last now).2.2 = last) := by
  cases folder
  · simp [backupStep]
  · unfold backupStep
    by_cases h1 : now - last > 60000000000
    · by_cases h2 : now - last > 900000000000
      · simp [h1, h2]
        try omega
      · simp [h1, h2]
        try omega
    · have h2 : ¬(now - last > 900000000000) := by omega
      simp [h1, h2]
      try omega

/-- C8 witness: at 961 seconds elapsed, a checkpoint is attempted, the
archive is emitted, and the timestamp advances to `now`. -/
theorem c8_witness :
    (backupStep true 0 961000000000).1 = true ∧
    (backupStep true 0 961000000000).2.1 = true ∧
    (backupStep true 0 961000000000).2.2 = 961000000000 :=
  ⟨by decide,
   ((c8_backup_amended true 0 961000000000).2.2.1).mpr ⟨rfl, by decide⟩,
   (c8_backup_amended true 0 961000000000).2.2.2.1 (by decide)⟩

end UMLib

namespace UMLib

/-- A machine state whose identifier counter has wrapped back to 0 (it is
reached from a fresh machine after 2^32 allocations); segment 0 is live
and holds a Halt instruction. -/
def cmWrap : UM :=
  { Gpr := fun _ => 0,
    Heap := fun k => if k = 0 then some [1879048192] else none,
    NextHeap := 0, ExFinger := 1 }

/-- C3 counterexample: in the wrap state `cmWrap`, opcode 8 (instruction
`0x80000000`, B = C = register 0) completes and places the identifier 0 in
R[B] — an identifier that is both 0 and the identifier of the live
segment 0, refuting the claim for this machine state. -/
theorem c3_counterexample :
    (exec cmWrap 0x80000000 rdNone).isNext = true ∧
    (execNext cmWrap 0x80000000 rdNone).Gpr ((0x80000000 &&& 0x00000038) >>> 3) = 0 ∧
    (cmWrap.Heap 0).isSome = true := by
  refine ⟨?_, ?_, ?_⟩ <;> decide

/-- C3 (amended): whenever opcode 8 executes in a state whose
next-identifier counter is a uint32 value that is neither 0 nor the
identifier of a live segment, the dispatch continues, R[B] receives that
counter value — hence a non-zero identifier that no live segment had —
and the new segment is a zero-filled array of length equal to the
pre-state R[C].  (Without the counter-freshness hypotheses the claim
fails, see the counterexample: the allocator hands out the raw counter.) -/
theorem c3_alloc_amended (m : UM) (instr : Nat) (rd : ReadResult)
    (hop : instr &&& 0xf0000000 = 0x80000000)
    (hlt : m.NextHeap < 4294967296)
    (hnz : m.NextHeap ≠ 0)
    (hfresh : m.Heap m.NextHeap = none) :
    (exec m instr rd).isNext = true ∧
    (execNext m instr rd).Gpr ((instr &&& 0x00000038) >>> 3) = m.NextHeap ∧
    (execNext m instr rd).Heap m.NextHeap =
      some (List.replicate (m.Gpr (instr &&& 0x00000007)) 0) ∧
    m.NextHeap ≠ 0 ∧ m.Heap m.NextHeap = none := by
  have hstep : exec m instr rd = Outcome.next
      { (allocateHeapArray m (m.Gpr (instr &&& 0x00000007))).1 with
        Gpr := setReg m.Gpr ((instr &&& 0x00000038) >>> 3)
          (allocateHeapArray m (m.Gpr (instr &&& 0x00000007))).2 } := by
    rw [exec_eq_execD, hop]
    rfl
  refine ⟨?_, ?_, ?_, hnz, hfresh⟩
  · rw [hstep]; rfl
  · unfold execNext
    rw [hstep]
    show setReg m.Gpr ((instr &&& 0x00000038) >>> 3)
      (((m.NextHeap + 1) % 4294967296 + 4294967295) % 4294967296)
      ((instr &&& 0x00000038) >>> 3) = m.NextHeap
    rw [setReg_same]
    omega
  · unfold execNext
    rw [hstep]
    show heapInsert m.Heap m.NextHeap
      (List.replicate (m.Gpr (instr &&& 0x00000007)) 0) m.NextHeap = _
    rw [heapInsert_same]

/-- A healthy mid-run state for the C3 witness: counter 5 is non-zero and
fresh, R[0] = 3 is the requested length. -/
def cmAlloc : UM :=
  { Gpr := fun _ => 3,
    Heap := fun k => if k = 0 then some [1, 2] else none,
    NextHeap := 5, ExFinger := 2 }

/-- C3 witness: allocating with instruction `0x80000008` (B = register 1,
C = register 0) in `cmAlloc` puts identifier 5 in R[1] and creates the
zero segment `[0, 0, 0]`. -/
theorem c3_witness :
    (exec cmAlloc 0x80000008 rdNone).isNext = true ∧
    (execNext cmAlloc 0x80000008 rdNone).Gpr ((0x80000008 &&& 0x00000038) >>> 3) =
      cmAlloc.NextHeap ∧
    (execNext cmAlloc 0x80000008 rdNone).Heap cmAlloc.NextHeap =
      some (List.replicate (cmAlloc.Gpr (0x80000008 &&& 0x00000007)) 0) ∧
    cmAlloc.NextHeap ≠ 0 ∧ cmAlloc.Heap cmAlloc.NextHeap = none :=
  c3_alloc_amended cmAlloc 0x80000008 rdNone (by decide) (by decide) (by decide)
    (by decide)

/-- C4: opcode 12 (Load Program).  The dispatch always continues and sets
the execution finger to the pre-state R[C].  With R[B] = 0 the heap is
untouched.  With R[B] ≠ 0 and segment R[B] live with contents `s`,
segment 0 afterwards holds exactly `s` (same length, same elements),
segment R[B] is still live with contents `s`, and the copy is a distinct
map entry: overwriting segment 0 afterwards (as opcode 2 amendments do)
leaves segment R[B] unchanged. -/
theorem c4_loadProgram_op (m : UM) (instr : Nat) (rd : ReadResult)
    (hop : instr &&& 0xf0000000 = 0xc0000000) :
    (exec m instr rd).isNext = true ∧
    (execNext m instr rd).ExFinger = (m.Gpr (instr &&& 0x00000007) : Int) ∧
    (m.Gpr ((instr &&& 0x00000038) >>> 3) = 0 →
      ∀ k, (execNext m instr rd).Heap k = m.Heap k) ∧
    (∀ s, m.Gpr ((instr &&& 0x00000038) >>> 3) ≠ 0 →
      m.Heap (m.Gpr ((instr &&& 0x00000038) >>> 3)) = some s →
      (execNext m instr rd).Heap 0 = some s ∧
      (execNext m instr rd).Heap (m.Gpr ((instr &&& 0x00000038) >>> 3)) = some s ∧
      ∀ l, heapInsert (execNext m instr rd).Heap 0 l
        (m.Gpr ((instr &&& 0x00000038) >>> 3)) = some s) := by
  by_cases hb : m.Gpr ((instr &&& 0x00000038) >>> 3) = 0
  · have hstep : exec m instr rd =
        Outcome.next { m with ExFinger := (m.Gpr (instr &&& 0x00000007) : Int) } := by
      rw [exec_eq_execD, hop]
      show (if m.Gpr ((instr &&& 0x00000038) >>> 3) ≠ 0 then _ else _) = _
      rw [if_neg (by simpa using hb)]
    refine ⟨by rw [hstep]; rfl, ?_, ?_, ?_⟩
    · unfold execNext; rw [hstep]
    · intro _ k; unfold execNext; rw [hstep]
    · intro s hb' _; exact absurd hb hb'
  · have hstep : exec m instr rd =
        Outcome.next { m with
          Heap := heapInsert m.Heap 0
            ((m.Heap (m.Gpr ((instr &&& 0x00000038) >>> 3))).getD []),
          ExFinger := (m.Gpr (instr &&& 0x00000007) : Int) } := by
      rw [exec_eq_execD, hop]
      show (if m.Gpr ((instr &&& 0x00000038) >>> 3) ≠ 0 then _ else _) = _
      rw [if_pos hb]
    refine ⟨by rw [hstep]; rfl, ?_, fun hb0 => absurd hb0 hb, ?_⟩
    · unfold execNext; rw [hstep]
    · intro s hb' hlive
      unfold execNext; rw [hstep]
      show heapInsert m.Heap 0 ((m.Heap (m.Gpr ((instr &&& 0x00000038) >>> 3))).getD [])
          0 = some s ∧ _
      rw [heapInsert_same, hlive]
      refine ⟨rfl, ?_, ?_⟩
      · show heapInsert m.Heap 0 _ (m.Gpr ((instr &&& 0x00000038) >>> 3)) = some s
        rw [heapInsert_other _ _ _ _ hb]
        exact hlive
      · intro l
        rw [heapInsert_other _ _ _ _ hb]
        show heapInsert m.Heap 0 _ (m.Gpr ((instr &&& 0x00000038) >>> 3)) = some s
        rw [heapInsert_other _ _ _ _ hb]
        exact hlive

end UMLib

namespace UMLib

/-- State for the C4 witness: R[1] = 2 points at live segment 2 with
contents `[3, 4, 5]`; segment 0 holds `[10, 11]`. -/
def cmLoad : UM :=
  { Gpr := fun j => if j = 1 then 2 else 0,
    Heap := fun k => if k = 0 then some [10, 11]
      else if k = 2 then some [3, 4, 5] else none,
    NextHeap := 3, ExFinger := 0 }

/-- C4 witness: instruction `0xc0000008` (opcode 12, B = register 1,
C = register 0) in `cmLoad` copies segment 2 into segment 0, keeps
segment 2 live, sets the finger to R[0] = 0, and a later overwrite of
segment 0 leaves segment 2 intact. -/
theorem c4_witness :
    (exec cmLoad 0xc0000008 rdNone).isNext = true ∧
    (execNext cmLoad 0xc0000008 rdNone).ExFinger =
      (cmLoad.Gpr (0xc0000008 &&& 0x00000007) : Int) ∧
    (execNext cmLoad 0xc0000008 rdNone).Heap 0 = some [3, 4, 5] ∧
    (execNext cmLoad 0xc0000008 rdNone).Heap
      (cmLoad.Gpr ((0xc0000008 &&& 0x00000038) >>> 3)) = some [3, 4, 5] ∧
    heapInsert (execNext cmLoad 0xc0000008 rdNone).Heap 0 [99]
      (cmLoad.Gpr ((0xc0000008 &&& 0x00000038) >>> 3)) = some [3, 4, 5] :=
  ⟨(c4_loadProgram_op cmLoad 0xc0000008 rdNone (by decide)).1,
   (c4_loadProgram_op cmLoad 0xc0000008 rdNone (by decide)).2.1,
   ((c4_loadProgram_op cmLoad 0xc0000008 rdNone (by decide)).2.2.2 [3, 4, 5]
      (by decide) (by decide)).1,
   ((c4_loadProgram_op cmLoad 0xc0000008 rdNone (by decide)).2.2.2 [3, 4, 5]
      (by decide) (by decide)).2.1,
   ((c4_loadProgram_op cmLoad 0xc0000008 rdNone (by decide)).2.2.2 [3, 4, 5]
      (by decide) (by decide)).2.2 [99]⟩

/-- The read result refuting C1: the reader delivers the byte 0x61 and
signals end-of-input in the same call, which Go's `io.Reader` contract
allows. -/
def rdByteEof : ReadResult := ⟨1, 0x61, some ReadErr.eof⟩

/-- C1 counterexample: on instruction `0xb0000000` (opcode 11, C =
register 0) with a read that delivers byte 0x61 together with
end-of-input, the dispatch continues but R[C] is 0xffffffff, not the
delivered byte: the code's EOF branch overwrites the stored byte, so
"whenever the read delivers a byte, R[C] equals that byte" fails. -/
theorem c1_counterexample :
    rdByteEof.count = 1 ∧ rdByteEof.byte = 0x61 ∧
    (exec newUM 0xb0000000 rdByteEof).isNext = true ∧
    (execNext newUM 0xb0000000 rdByteEof).Gpr (0xb0000000 &&& 0x00000007) =
      4294967295 ∧
    (4294967295 : Nat) ≠ 0x61 := by
  refine ⟨?_, ?_, ?_, ?_, ?_⟩ <;> decide

/-- C1 (amended): for opcode 11, provided the reader makes progress
(delivers a byte or signals an error) and bytes are genuine `uint8`
values: when the dispatch continues, R[C] equals the delivered byte if no
error was signalled, and R[C] equals 0xffffffff exactly when end-of-input
was signalled — even when a byte was delivered alongside EOF. -/
theorem c1_input_amended (m : UM) (instr : Nat) (rd : ReadResult) (m' : UM)
    (hop : instr &&& 0xf0000000 = 0xb0000000)
    (hbyte : rd.byte < 256)
    (hprog : rd.count = 1 ∨ rd.err ≠ none)
    (h : exec m instr rd = Outcome.next m') :
    (rd.err = none → m'.Gpr (instr &&& 0x00000007) = rd.byte) ∧
    (m'.Gpr (instr &&& 0x00000007) = 4294967295 ↔ rd.err = some ReadErr.eof) := by
  rw [exec_eq_execD, hop] at h
  replace h : (match rd.err with
    | none => Outcome.next { m with
        Gpr := if rd.count = 1 then setReg m.Gpr (instr &&& 0x00000007) rd.byte
          else m.Gpr }
    | some ReadErr.eof => Outcome.next { m with
        Gpr := setReg (if rd.count = 1 then
            setReg m.Gpr (instr &&& 0x00000007) rd.byte else m.Gpr)
          (instr &&& 0x00000007) 4294967295 }
    | some ReadErr.other => Outcome.halted true) = Outcome.next m' := h
  rcases herr : rd.err with _ | er
  · rw [herr] at h
    replace h : Outcome.next { m with
        Gpr := if rd.count = 1 then setReg m.Gpr (instr &&& 0x00000007) rd.byte
          else m.Gpr } = Outcome.next m' := h
    cases h
    have hcount : rd.count = 1 := by
      rcases hprog with hc | hne
      · exact hc
      · exact absurd herr hne
    constructor
    · intro _
      show (if rd.count = 1 then setReg m.Gpr (instr &&& 0x00000007) rd.byte
        else m.Gpr) (instr &&& 0x00000007) = rd.byte
      rw [if_pos hcount, setReg_same]
    · constructor
      · intro hv
        exfalso
        rw [show ({ m with
            Gpr := if rd.count = 1 then setReg m.Gpr (instr &&& 0x00000007) rd.byte
              else m.Gpr } : UM).Gpr (instr &&& 0x00000007) =
            (if rd.count = 1 then setReg m.Gpr (instr &&& 0x00000007) rd.byte
              else m.Gpr) (instr &&& 0x00000007) from rfl,
          if_pos hcount, setReg_same] at hv
        omega
      · intro he
        exact Option.noConfusion he
  · cases er
    · rw [herr] at h
      replace h : Outcome.next { m with
          Gpr := setReg (if rd.count = 1 then
              setReg m.Gpr (instr &&& 0x00000007) rd.byte else m.Gpr)
            (instr &&& 0x00000007) 4294967295 } = Outcome.next m' := h
      cases h
      refine ⟨fun he => Option.noConfusion he, ?_, fun _ => ?_⟩
      · intro _; rfl
      · show setReg (if rd.count = 1 then
            setReg m.Gpr (instr &&& 0x00000007) rd.byte else m.Gpr)
          (instr &&& 0x00000007) 4294967295 (instr &&& 0x00000007) = 4294967295
        rw [setReg_same]
    · rw [herr] at h
      replace h : Outcome.halted true = Outcome.next m' := h
      cases h

/-- C1 witness: a clean one-byte read (byte 65, no error) on instruction
`0xb0000002` (C = register 2) stores 65 in R[2], which is not
0xffffffff. -/
theorem c1_witness :
    ((⟨1, 65, none⟩ : ReadResult).err = none →
      (execNext newUM 0xb0000002 ⟨1, 65, none⟩).Gpr (0xb0000002 &&& 0x00000007) =
        (⟨1, 65, none⟩ : ReadResult).byte) ∧
    ((execNext newUM 0xb0000002 ⟨1, 65, none⟩).Gpr (0xb0000002 &&& 0x00000007) =
        4294967295 ↔ (⟨1, 65, none⟩ : ReadResult).err = some ReadErr.eof) :=
  c1_input_amended newUM 0xb0000002 ⟨1, 65, none⟩
    (execNext newUM 0xb0000002 ⟨1, 65, none⟩) (by decide) (by decide)
    (Or.inl rfl) rfl

/-- C9: register frame property of a dispatch step.  When the dispatch of
an instruction continues, every register other than the destination the
instruction names (`destReg`: A for opcodes 0, 1, 3, 4, 5, 6 and — via
bits 25..27 — 13, B for opcode 8, C for opcode 11, none for opcodes 2, 7,
9, 10, 12) keeps its pre-step value; when `destReg` is `none`, all eight
registers are unchanged. -/
theorem c9_register_frame (m : UM) (instr : Nat) (rd : ReadResult) (m' : UM)
    (h : exec m instr rd = Outcome.next m') :
    ∀ j, destReg instr ≠ some j → m'.Gpr j = m.Gpr j := by
  intro j hj
  rw [exec_eq_execD] at h
  exact (execD_frame m _ _ _ _ _ _ rd m' h).1 j hj

/-- C9 witness: the addition `0x30000040` (A = register 1) in `cmGen`
leaves register 2 unchanged. -/
theorem c9_witness :
    (execNext cmGen 0x30000040 rdNone).Gpr 2 = cmGen.Gpr 2 :=
  c9_register_frame cmGen 0x30000040 rdNone
    (execNext cmGen 0x30000040 rdNone) rfl 2 (by decide)

end UMLib

namespace UMLib

/-- C10: identifier handout discipline.  `allocateHeapArray` returns
exactly the pre-state counter and bumps the counter by one modulo 2^32;
dispatching any opcode other than 8 never changes the counter (in
particular opcode 9 abandonment does not); opcode 8 places the pre-state
counter in R[B] and bumps the counter; and the `LoadProgram` allocation
follows the same discipline, creating its segment at the pre-state
counter value.  Hence successive allocations over a machine's lifetime
hand out the consecutive counter values 0, 1, 2, ... irrespective of
abandonments, until the 32-bit counter wraps. -/
theorem c10_identifier_counter :
    (∀ m len, m.NextHeap < 4294967296 →
      (allocateHeapArray m len).2 = m.NextHeap ∧
      (allocateHeapArray m len).1.NextHeap = (m.NextHeap + 1) % 4294967296) ∧
    (∀ m instr rd m', exec m instr rd = Outcome.next m' →
      instr &&& 0xf0000000 ≠ 0x80000000 → m'.NextHeap = m.NextHeap) ∧
    (∀ m instr rd, instr &&& 0xf0000000 = 0x80000000 → m.NextHeap < 4294967296 →
      (execNext m instr rd).Gpr ((instr &&& 0x00000038) >>> 3) = m.NextHeap ∧
      (execNext m instr rd).NextHeap = (m.NextHeap + 1) % 4294967296) ∧
    (∀ m bytes, m.NextHeap < 4294967296 → bytes.length % 4 = 0 →
      (loadProgram m (Except.ok bytes)).1.NextHeap = (m.NextHeap + 1) % 4294967296 ∧
      (loadProgram m (Except.ok bytes)).1.Heap m.NextHeap =
        some (bytesToPlatters bytes)) := by
  refine ⟨?_, ?_, ?_, ?_⟩
  · intro m len hlt
    constructor
    · show ((m.NextHeap + 1) % 4294967296 + 4294967295) % 4294967296 = m.NextHeap
      omega
    · rfl
  · intro m instr rd m' h hne
    rw [exec_eq_execD] at h
    exact (execD_frame m _ _ _ _ _ _ rd m' h).2 hne
  · intro m instr rd hop hlt
    have hstep : exec m instr rd = Outcome.next
        { (allocateHeapArray m (m.Gpr (instr &&& 0x00000007))).1 with
          Gpr := setReg m.Gpr ((instr &&& 0x00000038) >>> 3)
            (allocateHeapArray m (m.Gpr (instr &&& 0x00000007))).2 } := by
      rw [exec_eq_execD, hop]
      rfl
    constructor
    · unfold execNext
      rw [hstep]
      show setReg m.Gpr ((instr &&& 0x00000038) >>> 3)
        (((m.NextHeap + 1) % 4294967296 + 4294967295) % 4294967296)
        ((instr &&& 0x00000038) >>> 3) = m.NextHeap
      rw [setReg_same]
      omega
    · unfold execNext
      rw [hstep]
      rfl
  · intro m bytes hlt hlen
    simp only [loadProgram]
    rw [if_pos hlen]
    constructor
    · rfl
    · show heapInsert (heapInsert m.Heap m.NextHeap
          (List.replicate ((bytes.length + 3) / 4) 0))
        (((m.NextHeap + 1) % 4294967296 + 4294967295) % 4294967296)
        (bytesToPlatters bytes) m.NextHeap = some (bytesToPlatters bytes)
      have href : ((m.NextHeap + 1) % 4294967296 + 4294967295) % 4294967296 =
          m.NextHeap := by omega
      rw [href, heapInsert_same]

/-- C10 witness: in `cmGen` (counter 3), an allocation returns 3 and bumps
the counter to 4, and an abandonment step (opcode 9, `0x90000000`) leaves
the counter at 3. -/
theorem c10_witness :
    (allocateHeapArray cmGen 2).2 = cmGen.NextHeap ∧
    (allocateHeapArray cmGen 2).1.NextHeap = (cmGen.NextHeap + 1) % 4294967296 ∧
    (execNext cmGen 0x90000000 rdNone).NextHeap = cmGen.NextHeap :=
  ⟨(c10_identifier_counter.1 cmGen 2 (by decide)).1,
   (c10_identifier_counter.1 cmGen 2 (by decide)).2,
   c10_identifier_counter.2.1 cmGen 0x90000000 rdNone
     (execNext cmGen 0x90000000 rdNone) rfl (by decide)⟩

/-- The length of the decoded platter list is the byte count divided by 4
(matching `numPlatters` of `LoadProgram` for well-formed streams). -/
theorem bytesToPlatters_length : ∀ l : List Nat,
    (bytesToPlatters l).length = l.length / 4
  | [] => rfl
  | [b] => by
    show ([] : List Nat).length = [b].length / 4
    simp
  | [b, b'] => by
    show ([] : List Nat).length = [b, b'].length / 4
    simp
  | [b, b', b''] => by
    show ([] : List Nat).length = [b, b', b''].length / 4
    simp
  | b0 :: b1 :: b2 :: b3 :: rest => by
    have ih := bytesToPlatters_length rest
    show (bytesToPlatters rest).length + 1 = _
    rw [ih]
    show rest.length / 4 + 1 = (rest.length + 4) / 4
    omega

/-- Index-shift helper: consuming one 4-byte group moves byte index `j + 4`
to `j`. -/
theorem getElem_cons_four (b0 b1 b2 b3 : Nat) (rest : List Nat) (j : Nat) :
    (b0 :: b1 :: b2 :: b3 :: rest)[j + 4]? = rest[j]? := by
  rw [show j + 4 = j + 3 + 1 from by omega, List.getElem?_cons_succ,
    show j + 3 = j + 2 + 1 from by omega, List.getElem?_cons_succ,
    show j + 2 = j + 1 + 1 from by omega, List.getElem?_cons_succ,
    List.getElem?_cons_succ]

/-- Big-endian grouping, element-wise: platter `i` of the decoded list is
built from bytes `4i`, `4i+1`, `4i+2`, `4i+3`, first byte most
significant. -/
theorem bytesToPlatters_get : ∀ (l : List Nat) (i a0 a1 a2 a3 : Nat),
    l[4 * i]? = some a0 → l[4 * i + 1]? = some a1 → l[4 * i + 2]? = some a2 →
    l[4 * i + 3]? = some a3 →
    (bytesToPlatters l)[i]? = some (((a0 * 256 + a1) * 256 + a2) * 256 + a3)
  | b0 :: b1 :: b2 :: b3 :: rest, 0, a0, a1, a2, a3 => by
    intro h0 h1 h2 h3
    rw [show 4 * 0 = 0 from by omega, List.getElem?_cons_zero] at h0
    rw [show 4 * 0 + 1 = 0 + 1 from by omega, List.getElem?_cons_succ,
      List.getElem?_cons_zero] at h1
    rw [show 4 * 0 + 2 = 0 + 1 + 1 from by omega, List.getElem?_cons_succ,
      List.getElem?_cons_succ, List.getElem?_cons_zero] at h2
    rw [show 4 * 0 + 3 = 0 + 1 + 1 + 1 from by omega, List.getElem?_cons_succ,
      List.getElem?_cons_succ, List.getElem?_cons_succ,
      List.getElem?_cons_zero] at h3
    cases h0; cases h1; cases h2; cases h3
    show ((((b0 * 256 + b1) * 256 + b2) * 256 + b3) :: bytesToPlatters rest)[0]? = _
    rw [List.getElem?_cons_zero]
  | b0 :: b1 :: b2 :: b3 :: rest, i + 1, a0, a1, a2, a3 => by
    intro h0 h1 h2 h3
    rw [show 4 * (i + 1) = 4 * i + 4 from by ring, getElem_cons_four] at h0
    rw [show 4 * (i + 1) + 1 = (4 * i + 1) + 4 from by ring, getElem_cons_four] at h1
    rw [show 4 * (i + 1) + 2 = (4 * i + 2) + 4 from by ring, getElem_cons_four] at h2
    rw [show 4 * (i + 1) + 3 = (4 * i + 3) + 4 from by ring, getElem_cons_four] at h3
    have ih := bytesToPlatters_get rest i a0 a1 a2 a3 h0 h1 h2 h3
    show ((((b0 * 256 + b1) * 256 + b2) * 256 + b3) :: bytesToPlatters rest)[i + 1]? = _
    rw [List.getElem?_cons_succ]
    exact ih
  | [], i, a0, a1, a2, a3 => by
    intro _ _ _ h3
    exact Option.noConfusion h3
  | [x], i, a0, a1, a2, a3 => by
    intro _ _ _ h3
    have hlt := (List.getElem?_eq_some.mp h3).1
    simp only [List.length_cons, List.length_nil] at hlt
    omega
  | [x, y], i, a0, a1, a2, a3 => by
    intro _ _ _ h3
    have hlt := (List.getElem?_eq_some.mp h3).1
    simp only [List.length_cons, List.length_nil] at hlt
    omega
  | [x, y, z], i, a0, a1, a2, a3 => by
    intro _ _ _ h3
    have hlt := (List.getElem?_eq_some.mp h3).1
    simp only [List.length_cons, List.length_nil] at hlt
    omega

end UMLib

namespace UMLib

/-- C6: `LoadProgram` on a fresh machine.  For any byte stream whose
length is a multiple of 4, loading succeeds, segment 0 holds exactly the
big-endian-decoded platter sequence (one platter per 4 bytes, first byte
most significant, as the element-wise characterization states), the
next-identifier counter is 1 and the execution finger is 0 — so dumping
segment 0 immediately afterwards yields exactly the input platter
sequence. -/
theorem c6_loadProgram (bytes : List Nat) (hlen : bytes.length % 4 = 0) :
    (loadProgram newUM (Except.ok bytes)).2 = false ∧
    (loadProgram newUM (Except.ok bytes)).1.Heap 0 = some (bytesToPlatters bytes) ∧
    (bytesToPlatters bytes).length = bytes.length / 4 ∧
    (∀ i a0 a1 a2 a3, bytes[4 * i]? = some a0 → bytes[4 * i + 1]? = some a1 →
      bytes[4 * i + 2]? = some a2 → bytes[4 * i + 3]? = some a3 →
      (bytesToPlatters bytes)[i]? =
        some (((a0 * 256 + a1) * 256 + a2) * 256 + a3)) ∧
    (loadProgram newUM (Except.ok bytes)).1.NextHeap = 1 ∧
    (loadProgram newUM (Except.ok bytes)).1.ExFinger = 0 := by
  refine ⟨?_, ?_, bytesToPlatters_length bytes,
    fun i a0 a1 a2 a3 => bytesToPlatters_get bytes i a0 a1 a2 a3, ?_, ?_⟩
  · simp only [loadProgram]
    rw [if_pos hlen]
  · simp only [loadProgram]
    rw [if_pos hlen]
    show heapInsert (heapInsert newUM.Heap newUM.NextHeap
        (List.replicate ((bytes.length + 3) / 4) 0))
      (((newUM.NextHeap + 1) % 4294967296 + 4294967295) % 4294967296)
      (bytesToPlatters bytes) 0 = some (bytesToPlatters bytes)
    rw [show ((newUM.NextHeap + 1) % 4294967296 + 4294967295) % 4294967296 = 0
      from by decide]
    rw [heapInsert_same]
  · simp only [loadProgram]
    rw [if_pos hlen]
    show (newUM.NextHeap + 1) % 4294967296 = 1
    decide
  · simp only [loadProgram]
    rw [if_pos hlen]
    rfl

/-- C6 witness: loading the two-platter program `[0x41, 0xd0000042]`
given as 8 big-endian bytes. -/
theorem c6_witness :
    (loadProgram newUM (Except.ok [0, 0, 0, 65, 208, 0, 0, 66])).2 = false ∧
    (loadProgram newUM (Except.ok [0, 0, 0, 65, 208, 0, 0, 66])).1.Heap 0 =
      some (bytesToPlatters [0, 0, 0, 65, 208, 0, 0, 66]) ∧
    (bytesToPlatters [0, 0, 0, 65, 208, 0, 0, 66])[1]? =
      some (((208 * 256 + 0) * 256 + 0) * 256 + 66) ∧
    (loadProgram newUM (Except.ok [0, 0, 0, 65, 208, 0, 0, 66])).1.NextHeap = 1 ∧
    (loadProgram newUM (Except.ok [0, 0, 0, 65, 208, 0, 0, 66])).1.ExFinger = 0 :=
  ⟨(c6_loadProgram [0, 0, 0, 65, 208, 0, 0, 66] (by decide)).1,
   (c6_loadProgram [0, 0, 0, 65, 208, 0, 0, 66] (by decide)).2.1,
   (c6_loadProgram [0, 0, 0, 65, 208, 0, 0, 66] (by decide)).2.2.2.1 1 208 0 0 66
     (by decide) (by decide) (by decide) (by decide),
   (c6_loadProgram [0, 0, 0, 65, 208, 0, 0, 66] (by decide)).2.2.2.2.1,
   (c6_loadProgram [0, 0, 0, 65, 208, 0, 0, 66] (by decide)).2.2.2.2.2⟩

/-- C5: instruction decoding.  For any 32-bit platter: the dispatch key
`instr & 0xf0000000` is the opcode — the four most significant bits —
shifted back into place; the three standard register selectors extract
bits 6..8, 3..5 and 0..2; for any opcode other than 13 the dispatch is
unchanged when bits 9..27 are cleared (so only the opcode and the three
register fields matter); and for opcode 13 the dispatch stores the
unsigned 25-bit immediate (bits 0..24, zero-extended) into the register
selected by bits 25..27. -/
theorem c5_decode (m : UM) (rd : ReadResult) (x : Nat) (hx : x < 4294967296) :
    x &&& 0xf0000000 = x / 268435456 * 268435456 ∧
    (x &&& 0x000001C0) >>> 6 = x / 64 % 8 ∧
    (x &&& 0x00000038) >>> 3 = x / 8 % 8 ∧
    x &&& 0x00000007 = x % 8 ∧
    (x / 268435456 ≠ 13 →
      exec m x rd = exec m (x / 268435456 * 268435456 + x % 512) rd) ∧
    (x / 268435456 = 13 →
      (x &&& 0x0e000000) >>> 25 = x / 33554432 % 8 ∧
      x &&& 0x01ffffff = x % 33554432 ∧
      exec m x rd = Outcome.next { m with
        Gpr := setReg m.Gpr (x / 33554432 % 8) (x % 33554432) }) := by
  refine ⟨?_, mask1C0_eq x, mask38_eq x, mask7_eq x, ?_, ?_⟩
  · rw [maskOp_eq]
    omega
  · intro hne
    rw [exec_eq_execD, exec_eq_execD]
    rw [maskOp_eq x, maskOp_eq (x / 268435456 * 268435456 + x % 512),
      mask1C0_eq x, mask1C0_eq (x / 268435456 * 268435456 + x % 512),
      mask38_eq x, mask38_eq (x / 268435456 * 268435456 + x % 512),
      mask7_eq x, mask7_eq (x / 268435456 * 268435456 + x % 512)]
    have e0 : (x / 268435456 * 268435456 + x % 512) / 268435456 % 16 * 268435456 =
        x / 268435456 % 16 * 268435456 := by omega
    have e1 : (x / 268435456 * 268435456 + x % 512) / 64 % 8 = x / 64 % 8 := by
      omega
    have e2 : (x / 268435456 * 268435456 + x % 512) / 8 % 8 = x / 8 % 8 := by
      omega
    have e3 : (x / 268435456 * 268435456 + x % 512) % 8 = x % 8 := by omega
    rw [e0, e1, e2, e3]
    exact execD_wide_irrelevant m _ _ _ _ _ _ _ _ rd (by omega)
  · intro h13
    have hop : x &&& 0xf0000000 = 0xd0000000 := by
      rw [maskOp_eq]
      omega
    refine ⟨mask0e_eq x, maskImm_eq x, ?_⟩
    rw [exec_eq_execD, hop]
    show Outcome.next { m with
      Gpr := setReg m.Gpr ((x &&& 0x0e000000) >>> 25) (x &&& 0x01ffffff) } = _
    rw [mask0e_eq, maskImm_eq]

/-- C5 witness: the immediate load `0xd0000041` (opcode 13) and the
addition `0x30000247` (opcode 3), decoded concretely in `cmGen`. -/
theorem c5_witness :
    (0xd0000041 : Nat) &&& 0xf0000000 = 0xd0000041 / 268435456 * 268435456 ∧
    ((0x30000247 : Nat) &&& 0x000001C0) >>> 6 = 0x30000247 / 64 % 8 ∧
    ((0x30000247 : Nat) &&& 0x00000038) >>> 3 = 0x30000247 / 8 % 8 ∧
    (0x30000247 : Nat) &&& 0x00000007 = 0x30000247 % 8 ∧
    exec cmGen 0x30000247 rdNone =
      exec cmGen (0x30000247 / 268435456 * 268435456 + 0x30000247 % 512) rdNone ∧
    exec cmGen 0xd0000041 rdNone = Outcome.next { cmGen with
      Gpr := setReg cmGen.Gpr (0xd0000041 / 33554432 % 8) (0xd0000041 % 33554432) } :=
  ⟨(c5_decode cmGen rdNone 0xd0000041 (by decide)).1,
   (c5_decode cmGen rdNone 0x30000247 (by decide)).2.1,
   (c5_decode cmGen rdNone 0x30000247 (by decide)).2.2.1,
   (c5_decode cmGen rdNone 0x30000247 (by decide)).2.2.2.1,
   (c5_decode cmGen rdNone 0x30000247 (by decide)).2.2.2.2.1 (by decide),
   ((c5_decode cmGen rdNone 0xd0000041 (by decide)).2.2.2.2.2 (by decide)).2.2⟩

end UMLib
